import Mathlib

/-!
Verification of the streaming text-to-speech core of the elevenlabs Go client.

Go strings are byte sequences, so we embed them as lists of byte values
(`List Nat`).  The text chunker (`chunker.go`) is embedded directly; the
streaming session driver (`client.go`, `doInputStreamingRequest`) is embedded
as a small-step state machine further below.
-/

abbrev Str := List Nat

/-- Embeds `strings.HasPrefix(s, sub)`: the first `len(sub)` bytes of `s`
equal `sub`. -/
def startsWith (s sub : Str) : Bool :=
  s.take sub.length == sub

/-- Embeds `strings.HasSuffix(s, sub)` (the source's `endsWith`): the last
`len(sub)` bytes of `s` equal `sub`. -/
def endsWith (s sub : Str) : Bool :=
  s.drop (s.length - sub.length) == sub

/-- Embeds `endsWithAny` from `chunker.go`. -/
def endsWithAny (s : Str) (subs : List Str) : Bool :=
  subs.any (fun sub => endsWith s sub)

/-- Embeds `startsWithAny` from `chunker.go`. -/
def startsWithAny (s : Str) (subs : List Str) : Bool :=
  subs.any (fun sub => startsWith s sub)

/-- The splitter substrings of `textChunker`, as the exact bytes of the
source file: `.`/`,`/`?`/`!`/`;`/`:`, the 8-byte sequence the source holds
in place of an em-dash, `-`/`(`/`)`/`[`/`]`, the closing curly brace, and
the space. -/
def splitters : List Str :=
  [[46], [44], [63], [33], [59], [58],
   [195, 162, 226, 130, 172, 226, 128, 157],
   [45], [40], [41], [91], [93], [125], [32]]

/-- The flush normalisation of `textChunker`: append a trailing space
(byte 32) unless the fragment already ends with one. -/
def normSpace (p : Str) : Str :=
  if endsWith p [32] then p else p ++ [32]

/-- Go's conversion `string(b)` of a single byte value to a string: the
UTF-8 encoding of the code point `b`.  For a byte below 128 this is the
byte itself; for a byte in 128..255 it is the two-byte encoding
192 + b / 64 followed by 128 + b % 64, so byte 195 becomes the two
bytes 195, 131. -/
def utf8OfByte (b : Nat) : Str :=
  if b < 128 then [b] else [192 + b / 64, 128 + b % 64]

/-- One iteration of the `textChunker` loop body on the current `buffer`
and the incoming token `t`: returns the fragments emitted by this
iteration and the new buffer.  Go's `buffer + string(text[0])` converts
the token's first byte to the UTF-8 encoding of its code-point value
(`utf8OfByte`), and `text[1:]` drops exactly one byte. -/
def chunkStep (buffer t : Str) : List Str × Str :=
  if endsWithAny buffer splitters then
    ([normSpace buffer], t)
  else if startsWithAny t splitters then
    ([normSpace (buffer ++ utf8OfByte (t.headD 0))], t.drop 1)
  else
    ([], buffer ++ t)

/-- The `textChunker` loop over a finite token sequence: all fragments
emitted during the loop, together with the buffer left when the input
channel closes. -/
def chunkFold (buffer : Str) : List Str → List Str × Str
  | [] => ([], buffer)
  | t :: ts =>
    let s := chunkStep buffer t
    let r := chunkFold s.2 ts
    (s.1 ++ r.1, r.2)

/-- Embeds `textChunker` from `chunker.go` on a finite input token
sequence: run the loop from the empty buffer, then flush the remaining
buffer as a final fragment when it is non-empty. -/
def textChunker (toks : List Str) : List Str :=
  let r := chunkFold [] toks
  r.1 ++ (if r.2 = [] then [] else [r.2])

/-- `insOnly allowed o r = true` iff `r` is obtained from `o` by
inserting bytes satisfying `allowed`: scanning both lists, equal heads
are matched, and any unmatched byte of `r` must satisfy `allowed`.
With `allowed` the space-only test this is the insertion relation of
the original C4 reading; the chunker needs `spaceOrCont`. -/
def insOnly (allowed : Nat → Bool) : List Nat → List Nat → Bool
  | [], [] => true
  | _ :: _, [] => false
  | [], r :: rs => allowed r && insOnly allowed [] rs
  | o :: os, r :: rs =>
    if o == r then insOnly allowed os rs
    else allowed r && insOnly allowed (o :: os) rs

/-- The space byte, the only insertion allowed by the original C4
reading. -/
def spaceOnly (b : Nat) : Bool := b == 32

/-- The bytes the chunker can insert: the space (32) and the UTF-8
continuation byte 131 produced by `utf8OfByte 195`. -/
def spaceOrCont (b : Nat) : Bool := b == 32 || b == 131

/- Concrete byte strings used in examples ("Hello", "world", ".",
"Helloworld. ", "Hello ", "world. ", ",world", "Hello, "). -/

def bHello : Str := [72, 101, 108, 108, 111]

def bworld : Str := [119, 111, 114, 108, 100]

def bdot : Str := [46]

def bHelloworldDotSp : Str := [72, 101, 108, 108, 111, 119, 111, 114, 108, 100, 46, 32]

def bHelloSp : Str := [72, 101, 108, 108, 111, 32]

def bworldDotSp : Str := [119, 111, 114, 108, 100, 46, 32]

def bCommaWorld : Str := [44, 119, 111, 114, 108, 100]

def bHelloCommaSp : Str := [72, 101, 108, 108, 111, 44, 32]

/-- The bytes of the token "x". -/
def bx : Str := [120]

/-- The 8-byte splitter sequence followed by the byte of "y". -/
def bMojiY : Str := [195, 162, 226, 130, 172, 226, 128, 157, 121]

/-!
Embedding of the streaming session driver `doInputStreamingRequest`
(`client.go`).  The model starts right after the successful handshake
(dial plus initial configuration frame).  The two concurrent activities
(the reader goroutine and the writer loop on the calling thread) are
modelled as a small-step state machine; a schedule (a list of actions)
resolves the interleaving, and each loop iteration of an activity is one
atomic step.  The environment supplies: the outcome of each socket write
(per token and for the final empty-text frame), the sequence of socket
read outcomes, the outcome of each audio-pipe write, and the base64
decoder `dec` (Go's `base64.StdEncoding.DecodeString`, an external
collaborator, abstracted as a function).  The metadata channel
(`ResponseChannel`) is assumed to always have a ready consumer, so its
blocking handoff always completes.  `errCh`, the buffered error channel
of capacity 1, is `errSlot`; a send on it while it is full blocks the
sending activity forever (nothing ever receives from it before the final
non-blocking select), which the phases `stuckErrSend` capture.
-/

abbrev GoErr := Nat

/-- Embeds `StreamingAlignmentSegment` from `client.go`. -/
structure StreamingAlignmentSegment where
  charStartTimesMs : List Int
  charDurationsMs : List Int
  chars : List Str
deriving DecidableEq

/-- Embeds `StreamingInputResponse` (an inbound frame); `audioData` is
the frame's base64 `Audio` string, as bytes. -/
structure StreamingInputResponse where
  audioData : Str
  isFinal : Bool
  normalizedAlignment : StreamingAlignmentSegment
  alignment : StreamingAlignmentSegment
deriving DecidableEq

/-- Embeds `StreamingOutputResponse` (a metadata event); `audioData` is
the decoded `Audio` byte slice, which the reader leaves nil. -/
structure StreamingOutputResponse where
  audioData : Str
  isFinal : Bool
  normalizedAlignment : StreamingAlignmentSegment
  alignment : StreamingAlignmentSegment
deriving DecidableEq

/-- Embeds `textChunk` (an outbound text frame); the final empty-text
frame is `⟨[], false⟩` (its JSON carries no trigger field). -/
structure textChunk where
  text : Str
  tryTriggerGeneration : Bool
deriving DecidableEq

/-- One socket read outcome: either a frame is read successfully
(`pipeOk` tells whether the subsequent `AudioResponsePipe.Write` for this
frame succeeds), or `conn.ReadJSON` fails with an error. -/
inductive InEvent
  | frame (f : StreamingInputResponse) (pipeOk : Bool)
  | readErr (e : GoErr)
deriving DecidableEq

/-- Control position of the calling thread inside
`doInputStreamingRequest`: the `InputWatcher` loop, the final-frame and
close block, `wg.Wait()`, the final select on `errCh`, the function
return, or blocked forever sending into the full `errCh`. -/
inductive WriterPhase
  | inLoop
  | afterLoop
  | waiting
  | selecting
  | done (res : Option GoErr)
  | stuckErrSend
deriving DecidableEq

/-- Control position of the reader goroutine: looping, returned, or
blocked forever sending into the full `errCh`. -/
inductive ReaderPhase
  | running
  | stuckErrSend
  | stopped
deriving DecidableEq

/-- The session state of one `doInputStreamingRequest` call:
`driverActive`/`driverError` are the two shared flags, `errSlot` the
buffered `errCh` of capacity 1, `inputCancelled` the `inputCtx`
cancellation, `ctxCancelled` the parent context.  `tokens` holds the
strings still to arrive on `TextReader` paired with the outcome of the
socket write for each (`none` means the write succeeds),
`tokensClosed` whether the producer closes the channel after them, and
`finalWriteErr` the outcome of writing the final empty-text frame.
`inbound` holds the remaining socket read outcomes.  `consumed`, `sent`,
`audioOut` and `responses` record the read outcomes processed, the
frames written to the socket, the audio-sink writes, and the metadata
events delivered on `ResponseChannel`. -/
structure DriverState where
  driverActive : Bool
  driverError : Bool
  errSlot : Option GoErr
  inputCancelled : Bool
  ctxCancelled : Bool
  tokens : List (Str × Option GoErr)
  tokensClosed : Bool
  finalWriteErr : Option GoErr
  inbound : List InEvent
  consumed : List InEvent
  sent : List textChunk
  audioOut : List Str
  responses : List StreamingOutputResponse
  writer : WriterPhase
  reader : ReaderPhase
deriving DecidableEq

/-- Scheduler actions: one reader loop iteration; the writer loop taking
the `TextReader`, `inputCtx.Done` or `ctx.Done` select case; the calling
thread advancing past the loop; and the environment cancelling the
parent context. -/
inductive Act
  | readerStep
  | writerRecv
  | writerInCancel
  | writerCtxCancel
  | writerStep
  | cancelCtx
deriving DecidableEq

/-- The metadata event the reader builds from an inbound frame: the audio
field is left nil, the other fields are copied. -/
def mkEvent (f : StreamingInputResponse) : StreamingOutputResponse :=
  { audioData := []
    isFinal := f.isFinal
    normalizedAlignment := f.normalizedAlignment
    alignment := f.alignment }

/-- The reader's fault path (`errCh <- err; driverError = true;
inputCancel()`): if `errCh` is empty the fault is recorded and the reader
returns; if it is full the send blocks forever, so neither flag is ever
set. -/
def readerFault (e : GoErr) (s : DriverState) : DriverState :=
  match s.errSlot with
  | none =>
    { s with
      errSlot := some e
      driverError := true
      inputCancelled := true
      reader := ReaderPhase.stopped }
  | some _ => { s with reader := ReaderPhase.stuckErrSend }

/-- One iteration of the reader goroutine loop: the `ctx.Done` select
case, then the `driverActive` check, then `conn.ReadJSON`; on a read
error or a base64 decode error the fault path runs; on a failed
audio-pipe write the frame is skipped; otherwise the audio bytes go to
the sink and a metadata event is delivered. -/
def readerFn (dec : Str → Except GoErr Str) (s : DriverState) : DriverState :=
  if s.reader = ReaderPhase.running then
    if s.ctxCancelled then { s with reader := ReaderPhase.stopped }
    else if s.driverActive then
      match s.inbound with
      | [] => s
      | ev :: rest =>
        let s1 := { s with inbound := rest, consumed := s.consumed ++ [ev] }
        match ev with
        | InEvent.readErr e => readerFault e s1
        | InEvent.frame f pOk =>
          match dec f.audioData with
          | Except.error e => readerFault e s1
          | Except.ok b =>
            if pOk then
              { s1 with
                audioOut := s1.audioOut ++ [b]
                responses := s1.responses ++ [mkEvent f] }
            else s1
    else { s with reader := ReaderPhase.stopped }
  else s

/-- The writer loop taking the `TextReader` case: a closed empty channel
ends the loop; otherwise the token is received, dropped if the driver is
no longer active, and sent as a text frame with the trigger flag set; a
write error is posted to `errCh` (blocking forever if it is full) and
ends the loop. -/
def recvFn (s : DriverState) : DriverState :=
  if s.writer = WriterPhase.inLoop then
    match s.tokens with
    | [] =>
      if s.tokensClosed then { s with writer := WriterPhase.afterLoop } else s
    | (t, w) :: rest =>
      if s.driverActive then
        match w with
        | none => { s with tokens := rest, sent := s.sent ++ [⟨t, true⟩] }
        | some e =>
          match s.errSlot with
          | none =>
            { s with
              tokens := rest
              errSlot := some e
              writer := WriterPhase.afterLoop }
          | some _ => { s with tokens := rest, writer := WriterPhase.stuckErrSend }
      else { s with tokens := rest, writer := WriterPhase.afterLoop }
  else s

/-- The calling thread after the loop: in the final-frame block, if the
driver is active and unerrored the final empty-text frame is written,
and a write failure is posted to `errCh` unless the parent context is
cancelled (blocking forever if `errCh` is full); then the socket is
closed and `wg.Wait()` blocks until the reader goroutine has returned;
the final select then returns the recorded fault if the driver was
active or errored, and nil otherwise. -/
def writerFn (s : DriverState) : DriverState :=
  if s.writer = WriterPhase.afterLoop then
    if s.driverActive && !s.driverError then
      match s.finalWriteErr with
      | none =>
        { s with
          sent := s.sent ++ [⟨[], false⟩]
          writer := WriterPhase.waiting }
      | some e =>
        if s.ctxCancelled then { s with writer := WriterPhase.waiting }
        else
          match s.errSlot with
          | none => { s with errSlot := some e, writer := WriterPhase.waiting }
          | some _ => { s with writer := WriterPhase.stuckErrSend }
    else { s with writer := WriterPhase.waiting }
  else if s.writer = WriterPhase.waiting then
    if s.reader = ReaderPhase.stopped then { s with writer := WriterPhase.selecting }
    else s
  else if s.writer = WriterPhase.selecting then
    match s.errSlot with
    | some e =>
      { s with
        errSlot := none
        writer := WriterPhase.done
          (if s.driverActive || s.driverError then some e else none) }
    | none => { s with writer := WriterPhase.done none }
  else s

/-- One scheduled step of the session.  The two cancellation select cases
of the writer loop only fire when the corresponding signal is set. -/
def step (dec : Str → Except GoErr Str) (a : Act) (s : DriverState) : DriverState :=
  match a with
  | Act.cancelCtx => { s with ctxCancelled := true }
  | Act.readerStep => readerFn dec s
  | Act.writerRecv => recvFn s
  | Act.writerInCancel =>
    if s.writer = WriterPhase.inLoop then
      if s.inputCancelled then
        { s with driverActive := false, writer := WriterPhase.afterLoop }
      else s
    else s
  | Act.writerCtxCancel =>
    if s.writer = WriterPhase.inLoop then
      if s.ctxCancelled then
        { s with driverActive := false, writer := WriterPhase.afterLoop }
      else s
    else s
  | Act.writerStep => writerFn s

/-- Run a schedule of steps. -/
def run (dec : Str → Except GoErr Str) (acts : List Act) (s : DriverState) : DriverState :=
  acts.foldl (fun s a => step dec a s) s

/-- The session state right after the successful handshake. -/
def initState (tokens : List (Str × Option GoErr)) (tokensClosed : Bool)
    (finalWriteErr : Option GoErr) (inbound : List InEvent) : DriverState :=
  { driverActive := true
    driverError := false
    errSlot := none
    inputCancelled := false
    ctxCancelled := false
    tokens := tokens
    tokensClosed := tokensClosed
    finalWriteErr := finalWriteErr
    inbound := inbound
    consumed := []
    sent := []
    audioOut := []
    responses := []
    writer := WriterPhase.inLoop
    reader := ReaderPhase.running }

/-- The metadata events for the fully processed read outcomes of a list:
one event per frame that was read, decoded and whose audio-pipe write
succeeded. -/
def okEvents (dec : Str → Except GoErr Str) : List InEvent → List StreamingOutputResponse
  | [] => []
  | InEvent.readErr _ :: rest => okEvents dec rest
  | InEvent.frame f pOk :: rest =>
    match dec f.audioData with
    | Except.error _ => okEvents dec rest
    | Except.ok _ =>
      if pOk then mkEvent f :: okEvents dec rest else okEvents dec rest

/-- How many read outcomes of a list are frames that were successfully
read and decoded (regardless of the audio-pipe write outcome). -/
def readDecodedCount (dec : Str → Except GoErr Str) : List InEvent → Nat
  | [] => 0
  | InEvent.readErr _ :: rest => readDecodedCount dec rest
  | InEvent.frame f _ :: rest =>
    (match dec f.audioData with
     | Except.ok _ => 1
     | Except.error _ => 0) + readDecodedCount dec rest

/-- The decoded audio of a frame under a decoder (for frames known to
decode successfully). -/
def decoded (dec : Str → Except GoErr Str) (f : StreamingInputResponse) : Str :=
  match dec f.audioData with
  | Except.ok b => b
  | Except.error _ => []

/-- A concrete stand-in decoder for closed instances: the byte string
`[0]` is malformed (error 9), anything else decodes to itself. -/
def dec0 : Str → Except GoErr Str :=
  fun a => if a = [0] then Except.error 9 else Except.ok a

def seg0 : StreamingAlignmentSegment :=
  { charStartTimesMs := [], charDurationsMs := [], chars := [] }

/-- A well-formed concrete inbound frame (audio `[1]`, decodes under
`dec0`). -/
def frame0 : StreamingInputResponse :=
  { audioData := [1]
    isFinal := false
    normalizedAlignment := seg0
    alignment := seg0 }

/-- A concrete inbound frame with malformed audio under `dec0`. -/
def frameBad : StreamingInputResponse :=
  { audioData := [0]
    isFinal := true
    normalizedAlignment := seg0
    alignment := seg0 }

/-- The bytes of the token "hi". -/
def bhi : Str := [104, 105]

/-- The C1 failing session: one token sent successfully, `TextReader`
closed, the final empty-text frame written successfully, then the socket
read fails with error 7 (the expected close sequence). -/
def c1run : DriverState :=
  run dec0 [Act.writerRecv, Act.writerRecv, Act.writerStep, Act.readerStep,
            Act.writerStep, Act.writerStep]
    (initState [(bhi, none)] true none [InEvent.readErr 7])

/-- The C3 counterexample session: one frame that reads and decodes but
whose audio-pipe write fails, then a read error ending the session. -/
def c3run : DriverState :=
  run dec0 [Act.writerRecv, Act.writerStep, Act.readerStep, Act.readerStep,
            Act.writerStep, Act.writerStep]
    (initState [] true none [InEvent.frame frame0 false, InEvent.readErr 5])

/-- The C8 failing session, stopped at the blocked send: the token write
fails (error 3, recorded in `errCh`), then the final empty-text frame
write also fails (error 5) and its posting to the full `errCh` blocks
the calling thread forever. -/
def c8stuck : DriverState :=
  run dec0 [Act.writerRecv, Act.writerStep]
    (initState [([97], some 3)] true (some 5) [])

/-- The C10 counterexample session: the parent context is cancelled
first (no fault recorded yet), then the writer loop takes the
`TextReader` case once more and that token write fails with error 4. -/
def c10run : DriverState :=
  run dec0 [Act.cancelCtx, Act.writerRecv, Act.writerStep, Act.readerStep,
            Act.writerStep, Act.writerStep]
    (initState [([97], some 4)] true (some 6) [])

/-- The canonical schedule for C7: the writer relays `m` tokens, the
reader processes `k` good frames and then the malformed one, the writer
honours the input cancellation, skips the final frame, waits and
selects. -/
def c7sched (m k : Nat) : List Act :=
  List.replicate m Act.writerRecv ++ List.replicate (k + 1) Act.readerStep ++
    [Act.writerInCancel, Act.writerStep, Act.writerStep, Act.writerStep]

/-- The canonical schedule for the amended C10: cancel the parent
context, let the writer exit through the `ctx.Done` case and the reader
through its context check. -/
def c10amSched : List Act :=
  [Act.cancelCtx, Act.writerCtxCancel, Act.writerStep, Act.readerStep,
   Act.writerStep, Act.writerStep]

theorem insOnly_refl (allowed : Nat → Bool) (o : List Nat) :
    insOnly allowed o o = true := by
  induction o with
  | nil => rfl
  | cons a as ih => simp [insOnly, ih]

theorem insOnly_append_left (allowed : Nat → Bool) (a : List Nat) {x y : List Nat}
    (h : insOnly allowed x y = true) :
    insOnly allowed (a ++ x) (a ++ y) = true := by
  induction a with
  | nil => simpa using h
  | cons c cs ih => simp [insOnly, ih]

theorem insOnly_ins (allowed : Nat → Bool) (y : List Nat) :
    (∀ c, allowed c = true → ∀ x, insOnly allowed x y = true →
      insOnly allowed x (c :: y) = true) ∧
    (∀ c, allowed c = true → ∀ os, insOnly allowed (c :: os) y = true →
      insOnly allowed os y = true) := by
  induction y with
  | nil =>
    constructor
    · intro c hc x hx
      cases x with
      | nil => simp [insOnly, hc]
      | cons a as => simp [insOnly] at hx
    · intro c hc os h
      simp [insOnly] at h
  | cons r rs ih =>
    have hB : ∀ c, allowed c = true →
        ∀ os, insOnly allowed (c :: os) (r :: rs) = true →
        insOnly allowed os (r :: rs) = true := by
      intro c hc os h
      by_cases hcr : c = r
      · subst hcr
        have h' : insOnly allowed os rs = true := by simpa [insOnly] using h
        exact ih.1 _ hc os h'
      · have e1 : (c == r) = false := beq_eq_false_iff_ne.mpr hcr
        obtain ⟨hr2, h'⟩ : allowed r = true ∧
            insOnly allowed (c :: os) rs = true := by
          simpa [insOnly, e1] using h
        exact ih.1 r hr2 os (ih.2 c hc os h')
    refine ⟨?_, hB⟩
    intro c hc x hx
    cases x with
    | nil => simpa [insOnly, hc] using hx
    | cons a as =>
      by_cases hac : a = c
      · subst hac
        have h' : insOnly allowed as (r :: rs) = true := hB _ hc as hx
        simpa [insOnly] using h'
      · have e1 : (a == c) = false := beq_eq_false_iff_ne.mpr hac
        simpa [insOnly, e1, hc] using hx

theorem insOnly_sublist (allowed : Nat → Bool) : ∀ {o r : List Nat},
    insOnly allowed o r = true → List.Sublist o r := by
  intro o r
  induction r generalizing o with
  | nil =>
    cases o with
    | nil => intro _; exact List.Sublist.refl []
    | cons a as => intro h; simp [insOnly] at h
  | cons c cs ih =>
    cases o with
    | nil => intro _; exact List.nil_sublist _
    | cons a as =>
      intro h
      by_cases hac : a = c
      · subst hac
        have h' : insOnly allowed as cs = true := by simpa [insOnly] using h
        exact List.Sublist.cons₂ a (ih h')
      · have e1 : (a == c) = false := beq_eq_false_iff_ne.mpr hac
        obtain ⟨-, h'⟩ : allowed c = true ∧
            insOnly allowed (a :: as) cs = true := by
          simpa [insOnly, e1] using h
        exact List.Sublist.cons c (ih h')

theorem insOnly_filter (allowed : Nat → Bool) : ∀ {o r : List Nat},
    insOnly allowed o r = true →
    r.filter (fun b => !(allowed b)) =
      o.filter (fun b => !(allowed b)) := by
  intro o r
  induction r generalizing o with
  | nil =>
    cases o with
    | nil => intro _; rfl
    | cons a as => intro h; simp [insOnly] at h
  | cons c cs ih =>
    cases o with
    | nil =>
      intro h
      have hc : allowed c = true := by
        rcases Bool.eq_false_or_eq_true (allowed c) with hb | hb
        · exact hb
        · simp [insOnly, hb] at h
      have h' : insOnly allowed [] cs = true := by simpa [insOnly, hc] using h
      simp [List.filter, hc, ih h']
    | cons a as =>
      intro h
      by_cases hac : a = c
      · subst hac
        have h' : insOnly allowed as cs = true := by simpa [insOnly] using h
        simp [List.filter, ih h']
      · have e1 : (a == c) = false := beq_eq_false_iff_ne.mpr hac
        have hc : allowed c = true := by
          rcases Bool.eq_false_or_eq_true (allowed c) with hb | hb
          · exact hb
          · simp [insOnly, e1, hb] at h
        have h' : insOnly allowed (a :: as) cs = true := by
          simpa [insOnly, e1, hc] using h
        simp [List.filter, hc, ih h']

theorem startsWith_head (t sub : Str) (h : startsWith t sub = true)
    (hne : sub ≠ []) : t.headD 0 = sub.headD 0 := by
  cases sub with
  | nil => exact absurd rfl hne
  | cons s0 srest =>
    cases t with
    | nil => simp [startsWith] at h
    | cons a as =>
      have ht : (a :: as).take (s0 :: srest).length = s0 :: srest := by
        simpa [startsWith] using h
      simp only [List.length_cons, List.take_succ_cons, List.cons.injEq] at ht
      simp [ht.1]

theorem splitters_head (t : Str) (h : startsWithAny t splitters = true) :
    t.headD 0 = 195 ∨ t.headD 0 < 128 := by
  unfold startsWithAny splitters at h
  simp only [List.any_cons, List.any_nil, Bool.or_eq_true, Bool.or_false] at h
  rcases h with h|h|h|h|h|h|h|h|h|h|h|h|h|h <;>
    rw [startsWith_head _ _ h (by decide)] <;> decide

theorem chunkFold_insOnly (toks : List Str) : ∀ buffer : Str,
    insOnly spaceOrCont (buffer ++ toks.flatten)
      ((chunkFold buffer toks).1.flatten ++ (chunkFold buffer toks).2) = true := by
  induction toks with
  | nil =>
    intro buffer
    simpa [chunkFold] using insOnly_refl spaceOrCont buffer
  | cons t ts ih =>
    intro buffer
    by_cases h1 : endsWithAny buffer splitters = true
    · have hs : chunkStep buffer t = ([normSpace buffer], t) := by
        simp [chunkStep, h1]
      by_cases h2 : endsWith buffer [32] = true
      · have hn : normSpace buffer = buffer := by simp [normSpace, h2]
        simpa [chunkFold, hs, hn, List.append_assoc] using
          insOnly_append_left spaceOrCont buffer (ih t)
      · have hn : normSpace buffer = buffer ++ [32] := by simp [normSpace, h2]
        have hin : insOnly spaceOrCont (t ++ ts.flatten)
            (32 :: ((chunkFold t ts).1.flatten ++ (chunkFold t ts).2)) = true :=
          (insOnly_ins spaceOrCont _).1 32 (by decide) _ (ih t)
        simpa [chunkFold, hs, hn, List.append_assoc] using
          insOnly_append_left spaceOrCont buffer hin
    · have h1f : endsWithAny buffer splitters = false := by
        simpa using h1
      by_cases h2 : startsWithAny t splitters = true
      · cases t with
        | nil => exact absurd h2 (by decide)
        | cons a as =>
          have hs : chunkStep buffer (a :: as) =
              ([normSpace (buffer ++ utf8OfByte a)], as) := by
            simp [chunkStep, h1f, h2]
          rcases splitters_head (a :: as) h2 with ha | ha
          · simp only [List.headD_cons] at ha
            subst ha
            have hu : utf8OfByte 195 = [195, 131] := by decide
            by_cases h3 : endsWith (buffer ++ [195, 131]) [32] = true
            · have hn : normSpace (buffer ++ utf8OfByte 195) =
                  buffer ++ [195, 131] := by
                rw [hu]; simp [normSpace, h3]
              have hin : insOnly spaceOrCont (as ++ ts.flatten)
                  (131 :: ((chunkFold as ts).1.flatten ++ (chunkFold as ts).2)) =
                    true :=
                (insOnly_ins spaceOrCont _).1 131 (by decide) _ (ih as)
              have hmid : insOnly spaceOrCont (195 :: (as ++ ts.flatten))
                  (195 :: 131 ::
                    ((chunkFold as ts).1.flatten ++ (chunkFold as ts).2)) =
                    true := by
                simpa [insOnly] using hin
              simpa [chunkFold, hs, hn, List.append_assoc] using
                insOnly_append_left spaceOrCont buffer hmid
            · have hn : normSpace (buffer ++ utf8OfByte 195) =
                  (buffer ++ [195, 131]) ++ [32] := by
                rw [hu]; simp [normSpace, h3]
              have hin1 : insOnly spaceOrCont (as ++ ts.flatten)
                  (32 :: ((chunkFold as ts).1.flatten ++ (chunkFold as ts).2)) =
                    true :=
                (insOnly_ins spaceOrCont _).1 32 (by decide) _ (ih as)
              have hmid : insOnly spaceOrCont (195 :: (as ++ ts.flatten))
                  (195 :: 131 :: 32 ::
                    ((chunkFold as ts).1.flatten ++ (chunkFold as ts).2)) =
                    true := by
                have hin2 := (insOnly_ins spaceOrCont _).1 131 (by decide) _ hin1
                simpa [insOnly] using hin2
              simpa [chunkFold, hs, hn, List.append_assoc] using
                insOnly_append_left spaceOrCont buffer hmid
          · simp only [List.headD_cons] at ha
            have hu : utf8OfByte a = [a] := by simp [utf8OfByte, ha]
            by_cases h3 : endsWith (buffer ++ [a]) [32] = true
            · have hn : normSpace (buffer ++ utf8OfByte a) = buffer ++ [a] := by
                rw [hu]; simp [normSpace, h3]
              simpa [chunkFold, hs, hn, List.append_assoc] using
                insOnly_append_left spaceOrCont (buffer ++ [a]) (ih as)
            · have hn : normSpace (buffer ++ utf8OfByte a) =
                  (buffer ++ [a]) ++ [32] := by
                rw [hu]; simp [normSpace, h3]
              have hin : insOnly spaceOrCont (as ++ ts.flatten)
                  (32 :: ((chunkFold as ts).1.flatten ++ (chunkFold as ts).2)) =
                    true :=
                (insOnly_ins spaceOrCont _).1 32 (by decide) _ (ih as)
              simpa [chunkFold, hs, hn, List.append_assoc] using
                insOnly_append_left spaceOrCont (buffer ++ [a]) hin
      · have h2f : startsWithAny t splitters = false := by
          simpa using h2
        have hs : chunkStep buffer t = ([], buffer ++ t) := by
          simp [chunkStep, h1f, h2f]
        have := ih (buffer ++ t)
        simpa [chunkFold, hs, List.append_assoc] using this

theorem textChunker_flatten (toks : List Str) :
    (textChunker toks).flatten =
      (chunkFold [] toks).1.flatten ++ (chunkFold [] toks).2 := by
  unfold textChunker
  by_cases h : (chunkFold [] toks).2 = [] <;> simp [h]

theorem endsWith_single (p : Str) (c : Nat) :
    endsWith p [c] = true ↔ p.getLast? = some c := by
  induction p with
  | nil => simp [endsWith]
  | cons a as ih =>
    cases as with
    | nil => simp [endsWith]
    | cons b bs =>
      have hd : (a :: b :: bs).length - [c].length = (((b :: bs).length - [c].length) + 1) := by
        simp only [List.length_cons, List.length_nil]
        omega
      simp only [endsWith] at ih ⊢
      rw [hd, List.drop_succ_cons, List.getLast?_cons_cons]
      exact ih

/-- C4 counterexample: token "x" followed by a token starting with the
8-byte splitter sequence: the flush appends the two bytes 195, 131
(Go's `string(text[0])` re-encoding of the first byte 195), inserting
the non-space byte 131 into the output, so the output is not the input
with only spaces inserted, and erasing spaces from both sides does not
reconcile them. -/
theorem c4_nonspace_insertion_counterexample :
    textChunker [bx, bMojiY] =
      [[120, 195, 131, 32], [162, 226, 130, 172, 226, 128, 157, 121]] ∧
    insOnly spaceOnly ([bx, bMojiY].flatten) ((textChunker [bx, bMojiY]).flatten) =
      false ∧
    (textChunker [bx, bMojiY]).flatten.filter (fun b => !(b == 32)) ≠
      ([bx, bMojiY].flatten).filter (fun b => !(b == 32)) := by
  decide

/-- C4 amended: for every finite input token sequence, the concatenation
of the fragments the Text Chunker emits reconstructs the concatenation
of the input tokens, except for single bytes inserted at flush
boundaries, each inserted byte being either a space (32) or the
continuation byte 131 that Go's `string(text[0])` conversion appends
after a flush on a token starting with the splitter byte 195: the input
is a sublist of the output, erasing the bytes 32 and 131 from both
sides gives equal strings (no other byte is dropped or duplicated), and
the output is the input with only bytes from 32, 131 inserted. -/
theorem c4_chunker_concat_reconstructs (toks : List Str) :
    List.Sublist toks.flatten (textChunker toks).flatten ∧
    (textChunker toks).flatten.filter (fun b => !(spaceOrCont b)) =
      toks.flatten.filter (fun b => !(spaceOrCont b)) ∧
    insOnly spaceOrCont toks.flatten ((textChunker toks).flatten) = true := by
  have h := chunkFold_insOnly toks []
  simp only [List.nil_append] at h
  rw [textChunker_flatten]
  exact ⟨insOnly_sublist _ h, insOnly_filter _ h, h⟩

/-- C5 counterexample: with buffer "x" and a token starting with the
8-byte splitter sequence, the chunker emits the fragment with bytes
120, 195, 131, 32 — `buffer + string(text[0])` re-encodes the first
byte 195 as the two bytes 195, 131 — which is neither the buffer plus
the token's first byte (120, 195, 32) nor the buffer plus the token's
first UTF-8 character (120, 195, 162, 32); the new buffer drops exactly
one byte of the token. -/
theorem c5_first_byte_counterexample :
    endsWithAny bx splitters = false ∧
    startsWithAny bMojiY splitters = true ∧
    chunkStep bx bMojiY =
      ([[120, 195, 131, 32]], [162, 226, 130, 172, 226, 128, 157, 121]) ∧
    (chunkStep bx bMojiY).1 ≠ [bx ++ (bMojiY.take 1 ++ [32])] ∧
    (chunkStep bx bMojiY).1 ≠ [bx ++ (bMojiY.take 2 ++ [32])] := by
  decide

/-- C5 amended: when the buffer does not end with any splitter and the
incoming token starts with one, the chunker emits exactly one fragment,
the buffer followed by Go's `string` conversion of the token's first
byte (the byte itself when below 128; the two bytes 195, 131 when the
first byte is 195, as for the 8-byte splitter), with a trailing space
appended unless the result already ends in one, and the new buffer is
the remainder of the token after its first byte; for tokens starting
with an ASCII splitter this coincides with the original claim. -/
theorem c5_flush_on_splitter_head (buffer t : Str)
    (h1 : endsWithAny buffer splitters = false)
    (h2 : startsWithAny t splitters = true) :
    chunkStep buffer t =
      ((if (buffer ++ utf8OfByte (t.headD 0)).getLast? = some 32
        then [buffer ++ utf8OfByte (t.headD 0)]
        else [buffer ++ (utf8OfByte (t.headD 0) ++ [32])]), t.drop 1) := by
  unfold chunkStep normSpace
  rw [if_neg (by simp [h1]), if_pos h2]
  by_cases hc : (buffer ++ utf8OfByte (t.headD 0)).getLast? = some 32
  · rw [if_pos hc, if_pos ((endsWith_single _ _).mpr hc)]
  · have he : ¬ (endsWith (buffer ++ utf8OfByte (t.headD 0)) [32] = true) := by
      intro hb
      exact hc ((endsWith_single _ _).mp hb)
    rw [if_neg hc, if_neg he]
    simp [List.append_assoc]

/-- C5 witness: tokens "Hello" then ",world" flush the fragment
"Hello, " and leave "world" in the buffer. -/
theorem c5_flush_on_splitter_head_witness :
    endsWithAny bHello splitters = false ∧
    startsWithAny bCommaWorld splitters = true ∧
    chunkStep bHello bCommaWorld = ([bHelloCommaSp], bworld) := by
  refine ⟨by decide, by decide, ?_⟩
  have h := c5_flush_on_splitter_head bHello bCommaWorld (by decide) (by decide)
  rw [h]
  decide

/-- C6 counterexample: the token sequence "Hello", "world", "." yields the
single fragment "Helloworld. ", with the two words fused without a space,
not fragments split at a space after each word. -/
theorem c6_example_counterexample :
    textChunker [bHello, bworld, bdot] = [bHelloworldDotSp] ∧
    textChunker [bHello, bworld, bdot] ≠ [bHelloSp, bworldDotSp] ∧
    bHelloSp ∉ textChunker [bHello, bworld, bdot] := by
  decide

/-- C6 amended: the token sequence "Hello", "world", "." produces the
single fragment "Helloworld. " (no splitter occurs between the words, so
they are concatenated without spaces); and for every input sequence, a
final fragment is emitted after the input closes exactly when the buffer
is then non-empty, and it is that buffer. -/
theorem c6_final_flush :
    textChunker [bHello, bworld, bdot] = [bHelloworldDotSp] ∧
    (∀ toks : List Str, (chunkFold [] toks).2 ≠ [] →
      textChunker toks = (chunkFold [] toks).1 ++ [(chunkFold [] toks).2]) ∧
    (∀ toks : List Str, (chunkFold [] toks).2 = [] →
      textChunker toks = (chunkFold [] toks).1) := by
  refine ⟨by decide, ?_, ?_⟩ <;> intro toks h <;> simp [textChunker, h]

/-- C6 witness: a single token "Hello" leaves a non-empty buffer, which is
emitted as the final fragment when the input closes. -/
theorem c6_final_flush_witness :
    textChunker [bHello] = (chunkFold [] [bHello]).1 ++ [(chunkFold [] [bHello]).2] := by
  exact c6_final_flush.2.1 [bHello] (by decide)

theorem run_nil (dec : Str → Except GoErr Str) (s : DriverState) :
    run dec [] s = s := rfl

theorem run_cons (dec : Str → Except GoErr Str) (a : Act) (acts : List Act)
    (s : DriverState) : run dec (a :: acts) s = run dec acts (step dec a s) := rfl

theorem run_append (dec : Str → Except GoErr Str) (l1 l2 : List Act)
    (s : DriverState) : run dec (l1 ++ l2) s = run dec l2 (run dec l1 s) := by
  simp [run, List.foldl_append]

theorem run_writer_sends (dec : Str → Except GoErr Str) (toksA : List Str) :
    ∀ s : DriverState, s.writer = WriterPhase.inLoop → s.driverActive = true →
    ∀ rest, s.tokens = toksA.map (fun t => (t, none)) ++ rest →
    run dec (List.replicate toksA.length Act.writerRecv) s =
      { s with
        tokens := rest
        sent := s.sent ++ toksA.map (fun t => ⟨t, true⟩) } := by
  induction toksA with
  | nil =>
    intro s hw ha rest ht
    simp only [List.map_nil, List.nil_append] at ht
    subst ht
    simp [run]
  | cons t ts ih =>
    intro s hw ha rest ht
    have hstep : step dec Act.writerRecv s =
        { s with
          tokens := ts.map (fun t => (t, none)) ++ rest
          sent := s.sent ++ [⟨t, true⟩] } := by
      simp only [List.map_cons, List.cons_append] at ht
      simp [step, recvFn, hw, ha, ht]
    rw [List.length_cons, List.replicate_succ, run_cons, hstep]
    rw [ih _ (by simp [hw]) (by simp [ha]) rest (by simp)]
    simp

theorem run_reader_frames (dec : Str → Except GoErr Str)
    (frames : List StreamingInputResponse) :
    ∀ s : DriverState, s.reader = ReaderPhase.running → s.ctxCancelled = false →
    s.driverActive = true →
    (∀ f ∈ frames, ∃ b, dec f.audioData = Except.ok b) →
    ∀ rest, s.inbound = frames.map (fun f => InEvent.frame f true) ++ rest →
    run dec (List.replicate frames.length Act.readerStep) s =
      { s with
        inbound := rest
        consumed := s.consumed ++ frames.map (fun f => InEvent.frame f true)
        audioOut := s.audioOut ++ frames.map (decoded dec)
        responses := s.responses ++ frames.map mkEvent } := by
  induction frames with
  | nil =>
    intro s h1 h2 h3 _ rest h5
    simp only [List.map_nil, List.nil_append] at h5
    subst h5
    simp [run]
  | cons f fs ih =>
    intro s h1 h2 h3 h4 rest h5
    obtain ⟨b, hb⟩ := h4 f (by simp)
    have hstep : step dec Act.readerStep s =
        { s with
          inbound := fs.map (fun f => InEvent.frame f true) ++ rest
          consumed := s.consumed ++ [InEvent.frame f true]
          audioOut := s.audioOut ++ [b]
          responses := s.responses ++ [mkEvent f] } := by
      simp only [List.map_cons, List.cons_append] at h5
      simp [step, readerFn, h1, h2, h3, h5, hb]
    rw [List.length_cons, List.replicate_succ, run_cons, hstep]
    rw [ih _ (by simp [h1]) (by simp [h2]) (by simp [h3])
      (fun g hg => h4 g (by simp [hg])) rest (by simp)]
    have hdb : decoded dec f = b := by simp [decoded, hb]
    simp [hdb, List.append_assoc]

theorem okEvents_append (dec : Str → Except GoErr Str) (l1 l2 : List InEvent) :
    okEvents dec (l1 ++ l2) = okEvents dec l1 ++ okEvents dec l2 := by
  induction l1 with
  | nil => rfl
  | cons ev rest ih =>
    cases ev with
    | readErr e => simpa [okEvents] using ih
    | frame f pOk =>
      cases hdec : dec f.audioData with
      | error e => simp [okEvents, hdec, ih]
      | ok b => cases pOk <;> simp [okEvents, hdec, ih]

theorem recvFn_responses (s : DriverState) : (recvFn s).responses = s.responses := by
  unfold recvFn
  repeat' split
  all_goals rfl

theorem recvFn_consumed (s : DriverState) : (recvFn s).consumed = s.consumed := by
  unfold recvFn
  repeat' split
  all_goals rfl

theorem writerFn_responses (s : DriverState) : (writerFn s).responses = s.responses := by
  unfold writerFn
  repeat' split
  all_goals rfl

theorem writerFn_consumed (s : DriverState) : (writerFn s).consumed = s.consumed := by
  unfold writerFn
  repeat' split
  all_goals rfl

theorem readerFault_responses (e : GoErr) (s : DriverState) :
    (readerFault e s).responses = s.responses := by
  unfold readerFault
  cases h : s.errSlot <;> simp [h]

theorem readerFault_consumed (e : GoErr) (s : DriverState) :
    (readerFault e s).consumed = s.consumed := by
  unfold readerFault
  cases h : s.errSlot <;> simp [h]

theorem readerFault_writer (e : GoErr) (s : DriverState) :
    (readerFault e s).writer = s.writer := by
  unfold readerFault
  cases h : s.errSlot <;> simp [h]

theorem readerFn_okEvents (dec : Str → Except GoErr Str) (s : DriverState)
    (h : s.responses = okEvents dec s.consumed) :
    (readerFn dec s).responses = okEvents dec (readerFn dec s).consumed := by
  unfold readerFn
  repeat' split
  all_goals simp_all [readerFault_responses, readerFault_consumed,
    okEvents_append, okEvents]

theorem step_okEvents (dec : Str → Except GoErr Str) (a : Act) (s : DriverState)
    (h : s.responses = okEvents dec s.consumed) :
    (step dec a s).responses = okEvents dec (step dec a s).consumed := by
  cases a with
  | readerStep => exact readerFn_okEvents dec s h
  | writerRecv =>
    rw [show step dec Act.writerRecv s = recvFn s from rfl,
      recvFn_responses, recvFn_consumed]
    exact h
  | writerStep =>
    rw [show step dec Act.writerStep s = writerFn s from rfl,
      writerFn_responses, writerFn_consumed]
    exact h
  | cancelCtx => simpa using h
  | writerInCancel =>
    simp only [step]
    repeat' split
    all_goals simpa using h
  | writerCtxCancel =>
    simp only [step]
    repeat' split
    all_goals simpa using h

theorem run_okEvents (dec : Str → Except GoErr Str) (acts : List Act) :
    ∀ s : DriverState, s.responses = okEvents dec s.consumed →
    (run dec acts s).responses = okEvents dec (run dec acts s).consumed := by
  induction acts with
  | nil => intro s h; exact h
  | cons a acts ih =>
    intro s h
    rw [run_cons]
    exact ih _ (step_okEvents dec a s h)

theorem readerFn_writer (dec : Str → Except GoErr Str) (s : DriverState) :
    (readerFn dec s).writer = s.writer := by
  unfold readerFn
  repeat' split
  all_goals simp [readerFault_writer]

theorem step_stuck (dec : Str → Except GoErr Str) (a : Act) (s : DriverState)
    (h : s.writer = WriterPhase.stuckErrSend) :
    (step dec a s).writer = WriterPhase.stuckErrSend := by
  cases a with
  | cancelCtx => simpa using h
  | readerStep =>
    rw [show step dec Act.readerStep s = readerFn dec s from rfl, readerFn_writer]
    exact h
  | writerRecv =>
    simp only [step]
    simp [recvFn, h]
  | writerInCancel =>
    simp only [step]
    simp [h]
  | writerCtxCancel =>
    simp only [step]
    simp [h]
  | writerStep =>
    simp only [step]
    simp [writerFn, h]

theorem run_stuck (dec : Str → Except GoErr Str) (acts : List Act) :
    ∀ s : DriverState, s.writer = WriterPhase.stuckErrSend →
    (run dec acts s).writer = WriterPhase.stuckErrSend := by
  induction acts with
  | nil => intro s h; exact h
  | cons a acts ih =>
    intro s h
    rw [run_cons]
    exact ih _ (step_stuck dec a s h)

/-- C1 (code bug): evaluating the driver on the expected close sequence.
The producer closes `TextReader` after one token (write ok), the driver
sends the end-of-input frame (it appears in `sent`), and the reader then
hits a socket read error (7).  Because `driverActive` is never cleared on
clean input exhaustion, the final select sees the flag still set and
`doInputStreamingRequest` returns the read error instead of the nil the
benign-termination rule promises. -/
theorem c1_clean_close_read_error_returned :
    c1run.sent = [⟨bhi, true⟩, ⟨[], false⟩] ∧
    c1run.tokens = [] ∧
    c1run.driverActive = true ∧
    c1run.writer = WriterPhase.done (some 7) := by
  decide

/-- C2 counterexample: the driver forwards the raw tokens "Hello" and
",world" unchanged as text frames; the Text Chunker applied to the same
tokens would emit "Hello, " and "world", so the written text-frame
sequence differs from the chunker's fragment sequence. -/
theorem c2_no_internal_chunker_counterexample :
    (run dec0 [Act.writerRecv, Act.writerRecv]
        (initState [(bHello, none), (bCommaWorld, none)] true none [])).sent =
      ([⟨bHello, true⟩, ⟨bCommaWorld, true⟩] : List textChunk) ∧
    textChunker [bHello, bCommaWorld] = [bHelloCommaSp, bworld] ∧
    (run dec0 [Act.writerRecv, Act.writerRecv]
        (initState [(bHello, none), (bCommaWorld, none)] true none [])).sent.map
      (fun c => c.text) ≠ textChunker [bHello, bCommaWorld] := by
  refine ⟨by decide, by decide, by decide⟩

/-- C2 amended: the driver does not run the Text Chunker; it forwards
every token received on `TextReader` directly as one text frame with the
trigger flag true, in order, and after the channel closes it writes the
end-of-input frame. -/
theorem c2_tokens_forwarded_directly (dec : Str → Except GoErr Str)
    (toks : List Str) (inb : List InEvent) :
    (run dec
        (List.replicate toks.length Act.writerRecv ++ [Act.writerRecv, Act.writerStep])
        (initState (toks.map (fun t => (t, none))) true none inb)).sent =
      toks.map (fun t => ⟨t, true⟩) ++ [⟨[], false⟩] := by
  rw [run_append]
  rw [run_writer_sends dec toks _ rfl rfl [] (by simp [initState])]
  simp [run, step, recvFn, writerFn, initState]

/-- C3 counterexample: a session in which one frame is read and decoded
successfully but its audio-pipe write fails, then a read error (5) ends
the session.  The session terminates returning error 5 with one frame
read and decoded but zero metadata events delivered, so the event count
does not equal the read-and-decoded count. -/
theorem c3_pipe_write_failure_counterexample :
    c3run.writer = WriterPhase.done (some 5) ∧
    readDecodedCount dec0 c3run.consumed = 1 ∧
    c3run.responses = [] := by
  decide

/-- C3 amended: in every session and under every schedule, the metadata
events delivered on `ResponseChannel` are exactly `okEvents` of the read
outcomes processed: one event per frame that was read, decoded, and
whose audio-pipe write succeeded, in order, with the event's audio field
nil and its other fields copied from that frame (`mkEvent`). -/
theorem c3_responses_track_fully_processed_frames (dec : Str → Except GoErr Str)
    (acts : List Act) (tokens : List (Str × Option GoErr)) (tc : Bool)
    (fwe : Option GoErr) (inb : List InEvent) :
    (run dec acts (initState tokens tc fwe inb)).responses =
      okEvents dec (run dec acts (initState tokens tc fwe inb)).consumed :=
  run_okEvents dec acts _ rfl

/-- C7: a malformed inbound frame (its audio fails to decode, first
fault of the session) halts the session: the reader stops, the writer is
cancelled through the input cancellation (`driverActive` becomes false,
no end-of-input frame is written), `doInputStreamingRequest` returns the
decode error, and no metadata event is delivered for the malformed frame
(the events are exactly those of the earlier well-formed frames). -/
theorem c7_malformed_frame_halts_session (dec : Str → Except GoErr Str)
    (toksA : List Str) (restTok : List (Str × Option GoErr)) (tc : Bool)
    (fwe : Option GoErr) (frames : List StreamingInputResponse)
    (hframes : ∀ f ∈ frames, ∃ b, dec f.audioData = Except.ok b)
    (fm : StreamingInputResponse) (e : GoErr)
    (hm : dec fm.audioData = Except.error e) (pOk : Bool)
    (restIn : List InEvent) :
    (run dec (c7sched toksA.length frames.length)
        (initState (toksA.map (fun t => (t, none)) ++ restTok) tc fwe
          (frames.map (fun f => InEvent.frame f true) ++
            InEvent.frame fm pOk :: restIn))).writer =
      WriterPhase.done (some e) ∧
    (run dec (c7sched toksA.length frames.length)
        (initState (toksA.map (fun t => (t, none)) ++ restTok) tc fwe
          (frames.map (fun f => InEvent.frame f true) ++
            InEvent.frame fm pOk :: restIn))).reader = ReaderPhase.stopped ∧
    (run dec (c7sched toksA.length frames.length)
        (initState (toksA.map (fun t => (t, none)) ++ restTok) tc fwe
          (frames.map (fun f => InEvent.frame f true) ++
            InEvent.frame fm pOk :: restIn))).driverActive = false ∧
    (run dec (c7sched toksA.length frames.length)
        (initState (toksA.map (fun t => (t, none)) ++ restTok) tc fwe
          (frames.map (fun f => InEvent.frame f true) ++
            InEvent.frame fm pOk :: restIn))).responses = frames.map mkEvent ∧
    (run dec (c7sched toksA.length frames.length)
        (initState (toksA.map (fun t => (t, none)) ++ restTok) tc fwe
          (frames.map (fun f => InEvent.frame f true) ++
            InEvent.frame fm pOk :: restIn))).consumed =
      frames.map (fun f => InEvent.frame f true) ++ [InEvent.frame fm pOk] ∧
    (run dec (c7sched toksA.length frames.length)
        (initState (toksA.map (fun t => (t, none)) ++ restTok) tc fwe
          (frames.map (fun f => InEvent.frame f true) ++
            InEvent.frame fm pOk :: restIn))).sent =
      toksA.map (fun t => ⟨t, true⟩) := by
  unfold c7sched
  rw [run_append, run_append,
    run_writer_sends dec toksA _ rfl rfl restTok rfl,
    List.replicate_succ', run_append,
    run_reader_frames dec frames _ rfl rfl rfl hframes
      (InEvent.frame fm pOk :: restIn) rfl]
  refine ⟨?_, ?_, ?_, ?_, ?_, ?_⟩ <;>
    simp [run, step, readerFn, readerFault, writerFn, initState, hm]

/-- C7 witness: one token relayed, then a frame with malformed audio
(`frameBad`, error 9 under `dec0`): the session returns error 9 and
delivers no metadata event. -/
theorem c7_malformed_frame_halts_session_witness :
    (run dec0 (c7sched 1 0)
        (initState [(bhi, none)] true none [InEvent.frame frameBad true])).writer =
      WriterPhase.done (some 9) ∧
    (run dec0 (c7sched 1 0)
        (initState [(bhi, none)] true none [InEvent.frame frameBad true])).responses =
      [] := by
  have h := c7_malformed_frame_halts_session dec0 [bhi] [] true none []
    (by intro f hf; simp at hf) frameBad 9 rfl true []
  exact ⟨h.1, h.2.2.2.1⟩

/-- C8 (code bug): after a token write fault (error 3, recorded in the
capacity-1 `errCh`), the final-frame write fault (error 5) is posted to
the already-full `errCh`; the send blocks the calling thread forever, so
`doInputStreamingRequest` never returns under any continuation of the
schedule — the second fault is not dropped, it deadlocks the session. -/
theorem c8_second_fault_send_blocks_forever :
    c8stuck.errSlot = some 3 ∧
    c8stuck.writer = WriterPhase.stuckErrSend ∧
    (∀ acts : List Act,
      (run dec0 acts c8stuck).writer = WriterPhase.stuckErrSend) := by
  refine ⟨by decide, by decide, ?_⟩
  intro acts
  exact run_stuck dec0 acts c8stuck (by decide)

/-- C9: when the audio-pipe write for a successfully decoded frame
fails, the reader records no fault, delivers no metadata event, does not
terminate the session, and proceeds to the next inbound read: the step
only advances `inbound` and the processed-outcome list, leaving every
other component of the session state unchanged. -/
theorem c9_pipe_write_failure_skips_frame (dec : Str → Except GoErr Str)
    (s : DriverState) (f : StreamingInputResponse) (rest : List InEvent) (b : Str)
    (hr : s.reader = ReaderPhase.running) (hc : s.ctxCancelled = false)
    (ha : s.driverActive = true)
    (hi : s.inbound = InEvent.frame f false :: rest)
    (hd : dec f.audioData = Except.ok b) :
    step dec Act.readerStep s =
      { s with
        inbound := rest
        consumed := s.consumed ++ [InEvent.frame f false] } := by
  simp [step, readerFn, hr, hc, ha, hi, hd]

/-- C9 witness: one frame with a failing pipe write under `dec0`: no
fault, no event, reader still running, next read pending. -/
theorem c9_pipe_write_failure_skips_frame_witness :
    (step dec0 Act.readerStep
        (initState [] true none [InEvent.frame frame0 false])).errSlot = none ∧
    (step dec0 Act.readerStep
        (initState [] true none [InEvent.frame frame0 false])).responses = [] ∧
    (step dec0 Act.readerStep
        (initState [] true none [InEvent.frame frame0 false])).reader =
      ReaderPhase.running ∧
    (step dec0 Act.readerStep
        (initState [] true none [InEvent.frame frame0 false])).inbound = [] := by
  have h := c9_pipe_write_failure_skips_frame dec0
    (initState [] true none [InEvent.frame frame0 false]) frame0 [] [1]
    rfl rfl rfl rfl rfl
  rw [h]
  exact ⟨rfl, rfl, rfl, rfl⟩

/-- C10 counterexample: the parent context is cancelled while no fault
is recorded, but before the writer observes the cancellation it takes
the `TextReader` case once more and that token write fails (error 4);
the fault is recorded after the cancellation and, `driverActive` still
being true, the driver returns error 4 instead of nil. -/
theorem c10_cancel_then_write_fault_counterexample :
    c10run.ctxCancelled = true ∧
    c10run.driverActive = true ∧
    c10run.writer = WriterPhase.done (some 4) := by
  decide

/-- C10 amended: if, after the parent context is cancelled with no fault
recorded, the writer exits its loop through the `ctx.Done` case and the
reader exits through its context check (so no fault is recorded at all),
`doInputStreamingRequest` returns nil, whatever tokens, inbound frames
or final-frame outcome the session holds. -/
theorem c10_cancellation_clean_exit_returns_nil (dec : Str → Except GoErr Str)
    (tokens : List (Str × Option GoErr)) (tc : Bool) (fwe : Option GoErr)
    (inb : List InEvent) :
    (run dec c10amSched (initState tokens tc fwe inb)).writer =
      WriterPhase.done none ∧
    (run dec c10amSched (initState tokens tc fwe inb)).errSlot = none := by
  exact ⟨rfl, rfl⟩
